import Mathlib

/-!
Shallow embedding of `src/controller.py` (AppleMusicDownloadManager).

The controller is a linear pipeline: read the task descriptor `album.json`,
run the Go downloader, scan `AM-DL downloads` for media files newer than the
task start time, validate each with ffmpeg (deleting corrupted files), and
map the combined result to a process exit code.

Python strings are modelled as `List Char`; the external world (descriptor
file, JSON parse outcome, downloader child process, filesystem entries,
ffmpeg results per file, unlink success per file) is passed in explicitly as
oracle data, so each run of `main` is a pure function of a `World`.
-/

namespace Controller

/-- Embedding of Python `pat in s` restricted to what the source needs: does
`pat` occur starting at the head of `s`? -/
def startsList : List Char → List Char → Bool
  | [], _ => true
  | _ :: _, [] => false
  | a :: as, b :: bs => a == b && startsList as bs

/-- Embedding of the Python substring test `pat in s`. -/
def occursIn (pat : List Char) : List Char → Bool
  | [] => startsList pat []
  | c :: rest => startsList pat (c :: rest) || occursIn pat rest

/-- Does `s` end in `pat`?  This is how `Path.rglob("*.m4a")` selects
entries: any name whose tail is the literal suffix. -/
def endsIn (pat s : List Char) : Bool := startsList pat.reverse s.reverse

/-- The whitespace characters removed by Python's `str.strip()`. -/
def isPySpace (c : Char) : Bool :=
  c == ' ' || c == '\t' || c == '\n' || c == '\r' || c == Char.ofNat 11 || c == Char.ofNat 12

/-- Embedding of `line.strip()`. -/
def pyStrip (s : List Char) : List Char :=
  ((s.dropWhile isPySpace).reverse.dropWhile isPySpace).reverse

/-- What `run_downloader_in_wsl` produces: the lines echoed to the console
after the progress filter, and its boolean result. -/
structure DownloaderRun where
  echoed : List (List Char)
  success : Bool
deriving Repr, DecidableEq

/-- The filter on an already-stripped line in `run_downloader_in_wsl`:
`"%" not in current_line and "MB/s" not in current_line and current_line`. -/
def keepLine (cur : List Char) : Bool :=
  !occursIn "%".data cur && !occursIn "MB/s".data cur && !cur.isEmpty

/-- Embedding of `run_downloader_in_wsl`.  `lines` are the child process's
output lines; `outcome` is `.ok code` for a reaped exit code and `.error ()`
when spawning or reading the child raises.  An exception prints a message and
returns `False`; otherwise the result is `return_code == 0`. -/
def run_downloader_in_wsl (lines : List (List Char)) (outcome : Except Unit Int) :
    DownloaderRun :=
  match outcome with
  | .error _ => ⟨[], false⟩
  | .ok code => ⟨(lines.map pyStrip).filter keepLine, decide (code = 0)⟩

/-- One filesystem entry seen by the scan: its path, whether `is_file()`
holds, its modification time, and whether the second `stat()` call in the
loop raises (the entry vanished between listing and stat). -/
structure FileEntry where
  path : List Char
  isFile : Bool
  mtime : Int
  statRaises : Bool
deriving Repr, DecidableEq

/-- `list(SCAN_DIR.rglob("*.m4a")) + list(SCAN_DIR.rglob("*.flac"))`: all
entries ending in `.m4a`, then all ending in `.flac`. -/
def rglobMedia (files : List FileEntry) : List FileEntry :=
  files.filter (fun f => endsIn ".m4a".data f.path)
    ++ files.filter (fun f => endsIn ".flac".data f.path)

/-- The `for f in all_media_files` loop of `find_incremental_files`: append
entries that are files with `st_mtime > start_time`; a raising `stat()`
aborts the loop, and the entries appended so far are what is returned. -/
def scanLoop (startTime : Int) : List FileEntry → List FileEntry
  | [] => []
  | f :: rest =>
    if f.isFile then
      if f.statRaises then []
      else if startTime < f.mtime then f :: scanLoop startTime rest
      else scanLoop startTime rest
    else scanLoop startTime rest

/-- Embedding of `find_incremental_files`.  `scanDirExists` is
`SCAN_DIR.exists()`; `listRaises` says the eager `rglob` listing itself
raises (before anything is appended). -/
def find_incremental_files (startTime : Int) (scanDirExists listRaises : Bool)
    (files : List FileEntry) : List FileEntry :=
  if !scanDirExists then []
  else if listRaises then []
  else scanLoop startTime (rglobMedia files)

/-- Outcome of one ffmpeg invocation on one file: clean exit, nonzero exit
(`CalledProcessError`), or the tool itself missing (`FileNotFoundError`). -/
inductive FfmpegResult
  | ok
  | corrupted
  | toolMissing
deriving Repr, DecidableEq

/-- What a run of `validate_files_with_ffmpeg` did: the files ffmpeg was
invoked on, in order; the files whose `unlink()` succeeded; the returned
boolean. -/
structure ValidationRun where
  checked : List (List Char)
  deleted : List (List Char)
  result : Bool
deriving Repr, DecidableEq

/-- The `for media_file in files_to_validate` loop, carrying `all_valid`.
A corrupted file flips `all_valid` and is unlinked (a failing unlink is
logged only); a missing tool returns `False` at once. -/
def validateLoop (ffmpeg : List Char → FfmpegResult) (unlinkOk : List Char → Bool)
    (allValid : Bool) : List (List Char) → ValidationRun
  | [] => ⟨[], [], allValid⟩
  | f :: rest =>
    match ffmpeg f with
    | .ok =>
      let r := validateLoop ffmpeg unlinkOk allValid rest
      ⟨f :: r.checked, r.deleted, r.result⟩
    | .toolMissing => ⟨[f], [], false⟩
    | .corrupted =>
      let r := validateLoop ffmpeg unlinkOk false rest
      if unlinkOk f then ⟨f :: r.checked, f :: r.deleted, r.result⟩
      else ⟨f :: r.checked, r.deleted, r.result⟩

/-- Embedding of `validate_files_with_ffmpeg`. -/
def validate_files_with_ffmpeg (ffmpeg : List Char → FfmpegResult)
    (unlinkOk : List Char → Bool) (files_to_validate : List (List Char)) :
    ValidationRun :=
  if files_to_validate.isEmpty then ⟨[], [], true⟩
  else validateLoop ffmpeg unlinkOk true files_to_validate

/-- A JSON value as `json.load` hands it to Python (a null becomes `None`). -/
inductive JsonVal
  | null
  | str (s : List Char)
  | num (n : Int)
  | boolean (b : Bool)
deriving Repr, DecidableEq

/-- `task_data.get(k)`: the value stored under `k`, or `None`. -/
def dictGet (d : List (List Char × JsonVal)) (k : List Char) : Option JsonVal :=
  match d.find? (fun kv => kv.1 == k) with
  | none => none
  | some kv => some kv.2

/-- Python truthiness of `task_data.get("album_url")`: `None` (absent key or
JSON null), the empty string, zero and `False` are falsy. -/
def pyTruthy : Option JsonVal → Bool
  | none => false
  | some .null => false
  | some (.str s) => !s.isEmpty
  | some (.num n) => decide (n ≠ 0)
  | some (.boolean b) => b

/-- The external world of one run: descriptor presence, the outcome of
parsing it, the task start timestamp, the downloader child's behaviour, and
the filesystem and tool oracles for the scan and validation stages. -/
structure World where
  albumJsonExists : Bool
  jsonLoad : Except Unit (List (List Char × JsonVal))
  startTime : Int
  downloaderLines : List (List Char)
  downloaderOutcome : Except Unit Int
  scanDirExists : Bool
  listRaises : Bool
  scanFiles : List FileEntry
  ffmpeg : List Char → FfmpegResult
  unlinkOk : List Char → Bool

/-- The candidate paths `main` hands to validation: the scan result. -/
def candidates (w : World) : List (List Char) :=
  (find_incremental_files w.startTime w.scanDirExists w.listRaises w.scanFiles).map
    (fun f => f.path)

/-- The observable outcome of `main`: the process exit code, whether the
downloader was spawned, whether the scan stage was entered, and the
validation stage's record when it ran (`none` when it was never entered, so
in particular no file was deleted). -/
structure MainResult where
  exitCode : Nat
  downloaderInvoked : Bool
  scanPerformed : Bool
  validation : Option ValidationRun
deriving Repr, DecidableEq

/-- Embedding of `main`.  `sys.exit(0/1)` raises `SystemExit`, which the
enclosing `except Exception` does not catch, so each `sys.exit` is a genuine
exit; a raising `json.load` lands in that handler and exits 1. -/
def main (w : World) : MainResult :=
  if !w.albumJsonExists then ⟨0, false, false, none⟩
  else
    match w.jsonLoad with
    | .error _ => ⟨1, false, false, none⟩
    | .ok task_data =>
      let album_url := dictGet task_data "album_url".data
      if !pyTruthy album_url then ⟨1, false, false, none⟩
      else
        let go := run_downloader_in_wsl w.downloaderLines w.downloaderOutcome
        if !go.success then ⟨1, true, false, none⟩
        else
          let vr := validate_files_with_ffmpeg w.ffmpeg w.unlinkOk (candidates w)
          if vr.result then ⟨0, true, true, some vr⟩
          else ⟨1, true, true, some vr⟩

/-- With no raising `stat`, the scan loop is a plain filter: files whose
modification time is after the start time. -/
theorem scanLoop_clean (t : Int) (l : List FileEntry)
    (h : ∀ f ∈ l, f.statRaises = false) :
    scanLoop t l = l.filter (fun f => f.isFile && decide (t < f.mtime)) := by
  induction l with
  | nil => rfl
  | cons f rest ih =>
    have hf : f.statRaises = false := h f (by simp)
    have hrest : ∀ g ∈ rest, g.statRaises = false := fun g hg => h g (by simp [hg])
    cases hif : f.isFile with
    | true =>
      by_cases hm : t < f.mtime <;>
        simp [scanLoop, hif, hf, hm, ih hrest, List.filter_cons]
    | false => simp [scanLoop, hif, ih hrest, List.filter_cons]

/-- The scan loop stops at the first raising `stat`, keeping the entries
accumulated before it. -/
theorem scanLoop_raise (t : Int) (pre post : List FileEntry) (f : FileEntry)
    (hpre : ∀ g ∈ pre, g.statRaises = false) (hf : f.isFile = true)
    (hraise : f.statRaises = true) :
    scanLoop t (pre ++ f :: post) =
      pre.filter (fun g => g.isFile && decide (t < g.mtime)) := by
  induction pre with
  | nil => simp [scanLoop, hf, hraise]
  | cons g gs ih =>
    have hg : g.statRaises = false := hpre g (by simp)
    have hgs : ∀ x ∈ gs, x.statRaises = false := fun x hx => hpre x (by simp [hx])
    cases hgf : g.isFile with
    | true =>
      by_cases hm : t < g.mtime <;>
        simp [scanLoop, hgf, hg, hm, ih hgs, List.filter_cons]
    | false => simp [scanLoop, hgf, ih hgs, List.filter_cons]

/-- With the tool present on every file of the list, the validation loop
checks every file in order, deletes exactly the corrupted ones whose unlink
succeeds, and its boolean is the running flag conjoined with
"no file is corrupted". -/
theorem validateLoop_clean (fm : List Char → FfmpegResult) (un : List Char → Bool)
    (b : Bool) (l : List (List Char)) (h : ∀ g ∈ l, fm g ≠ .toolMissing) :
    validateLoop fm un b l =
      ⟨l, l.filter (fun g => decide (fm g = .corrupted) && un g),
        b && l.all (fun g => !decide (fm g = .corrupted))⟩ := by
  induction l generalizing b with
  | nil => simp [validateLoop]
  | cons f rest ih =>
    have hf : fm f ≠ .toolMissing := h f (by simp)
    have hrest : ∀ g ∈ rest, fm g ≠ .toolMissing := fun g hg => h g (by simp [hg])
    cases hfmp : fm f with
    | ok => simp [validateLoop, hfmp, ih b hrest, List.filter_cons, List.all_cons]
    | toolMissing => exact absurd hfmp hf
    | corrupted =>
      cases hu : un f <;>
        simp [validateLoop, hfmp, hu, ih false hrest, List.filter_cons, List.all_cons]

/-- When the tool is missing at file `f`, the validation loop returns false
right there: files before `f` were checked (and corrupted ones deleted),
`f`'s invocation raised, and nothing after `f` is touched. -/
theorem validateLoop_missing (fm : List Char → FfmpegResult) (un : List Char → Bool)
    (b : Bool) (fs rest : List (List Char)) (f : List Char)
    (hfs : ∀ g ∈ fs, fm g ≠ .toolMissing) (hf : fm f = .toolMissing) :
    validateLoop fm un b (fs ++ f :: rest) =
      ⟨fs ++ [f], fs.filter (fun g => decide (fm g = .corrupted) && un g), false⟩ := by
  induction fs generalizing b with
  | nil => simp [validateLoop, hf]
  | cons g gs ih =>
    have hg : fm g ≠ .toolMissing := hfs g (by simp)
    have hgs : ∀ x ∈ gs, fm x ≠ .toolMissing := fun x hx => hfs x (by simp [hx])
    cases hfmp : fm g with
    | ok => simp [validateLoop, hfmp, ih b hgs, List.filter_cons]
    | toolMissing => exact absurd hfmp hg
    | corrupted =>
      cases hu : un g <;>
        simp [validateLoop, hfmp, hu, ih false hgs, List.filter_cons]

/-- Claim C2: with no traversal exception, `find_incremental_files` returns
exactly the entries under the scan directory whose name ends in `.m4a` or
`.flac`, which are regular files, and whose modification time is strictly
greater than the start timestamp; and when the scan directory does not exist
it returns the empty list rather than raising. -/
theorem find_incremental_files_spec (t : Int) (ex : Bool) (files : List FileEntry)
    (hclean : ∀ f ∈ files, f.statRaises = false) :
    (ex = false → find_incremental_files t ex false files = []) ∧
    (ex = true → ∀ g : FileEntry,
      g ∈ find_incremental_files t ex false files ↔
        g ∈ files ∧
          (endsIn ".m4a".data g.path = true ∨ endsIn ".flac".data g.path = true) ∧
          g.isFile = true ∧ t < g.mtime) := by
  constructor
  · intro hex
    simp [find_incremental_files, hex]
  · intro hex g
    subst hex
    have hmed : ∀ f ∈ rglobMedia files, f.statRaises = false := by
      intro f hf
      rcases List.mem_append.mp hf with h1 | h1 <;>
        exact hclean f (List.mem_filter.mp h1).1
    rw [show find_incremental_files t true false files = scanLoop t (rglobMedia files)
        from rfl, scanLoop_clean t _ hmed]
    simp only [List.mem_filter, rglobMedia, List.mem_append, Bool.and_eq_true,
      decide_eq_true_eq]
    tauto

/-- Input for the concrete scan runs below: one good `.m4a` file, one file
with the wrong extension, one `.flac` file older than the start time. -/
def scanExample : List FileEntry :=
  [⟨"a.m4a".data, true, 5, false⟩, ⟨"b.txt".data, true, 5, false⟩,
   ⟨"c.flac".data, true, -1, false⟩]

theorem find_incremental_files_spec_witness :
    (∀ f ∈ scanExample, f.statRaises = false) ∧
    ((⟨"a.m4a".data, true, 5, false⟩ : FileEntry) ∈
        find_incremental_files 0 true false scanExample ↔
      (⟨"a.m4a".data, true, 5, false⟩ : FileEntry) ∈ scanExample ∧
        (endsIn ".m4a".data "a.m4a".data = true ∨ endsIn ".flac".data "a.m4a".data = true) ∧
        true = true ∧ (0 : Int) < 5) :=
  ⟨by decide, (find_incremental_files_spec 0 true scanExample (by decide)).2 rfl
    ⟨"a.m4a".data, true, 5, false⟩⟩

/-- A good entry followed by an entry whose `stat` raises mid-loop. -/
def raiseExample : List FileEntry :=
  [⟨"a.m4a".data, true, 5, false⟩, ⟨"b.m4a".data, true, 5, true⟩]

/-- Claim C3, counterexample: a traversal exception does not yield the empty
list — the entry appended before the exception is returned. -/
theorem find_incremental_files_exception_cex :
    (⟨"b.m4a".data, true, 5, true⟩ : FileEntry).statRaises = true ∧
    find_incremental_files 0 true false raiseExample =
      [⟨"a.m4a".data, true, 5, false⟩] ∧
    find_incremental_files 0 true false raiseExample ≠ [] := by
  refine ⟨rfl, by decide, by decide⟩

/-- Claim C3 (amended): an exception during traversal is caught and the scan
returns the candidates accumulated before the exception point: the matching
entries seen before a raising `stat`, and the empty list when the eager
listing itself raises. -/
theorem find_incremental_files_exception (t : Int) (files pre post : List FileEntry)
    (f : FileEntry) (hmedia : rglobMedia files = pre ++ f :: post)
    (hpre : ∀ g ∈ pre, g.statRaises = false)
    (hf : f.isFile = true) (hraise : f.statRaises = true) :
    find_incremental_files t true false files =
      pre.filter (fun g => g.isFile && decide (t < g.mtime)) ∧
    (∀ ex : Bool, find_incremental_files t ex true files = []) := by
  constructor
  · rw [show find_incremental_files t true false files = scanLoop t (rglobMedia files)
        from rfl, hmedia, scanLoop_raise t pre post f hpre hf hraise]
  · intro ex
    cases ex <;> simp [find_incremental_files]

theorem find_incremental_files_exception_witness :
    rglobMedia raiseExample =
      [⟨"a.m4a".data, true, 5, false⟩] ++ ⟨"b.m4a".data, true, 5, true⟩ :: [] ∧
    find_incremental_files 0 true false raiseExample =
      ([⟨"a.m4a".data, true, 5, false⟩] : List FileEntry).filter
        (fun g => g.isFile && decide (0 < g.mtime)) ∧
    (∀ ex : Bool, find_incremental_files 0 ex true raiseExample = []) :=
  ⟨by decide,
    (find_incremental_files_exception 0 raiseExample [⟨"a.m4a".data, true, 5, false⟩] []
      ⟨"b.m4a".data, true, 5, true⟩ (by decide) (by decide) rfl rfl).1,
    (find_incremental_files_exception 0 raiseExample [⟨"a.m4a".data, true, 5, false⟩] []
      ⟨"b.m4a".data, true, 5, true⟩ (by decide) (by decide) rfl rfl).2⟩

/-- Claim C4: when invoking the tool raises file-not-found at file `f`
(every earlier file having found the tool), validation returns false at
once: no file after `f` is invoked and none of them is deleted. -/
theorem validate_files_toolMissing (fm : List Char → FfmpegResult)
    (un : List Char → Bool) (fs rest : List (List Char)) (f : List Char)
    (hfs : ∀ g ∈ fs, fm g ≠ .toolMissing) (hf : fm f = .toolMissing) :
    (validate_files_with_ffmpeg fm un (fs ++ f :: rest)).result = false ∧
    (validate_files_with_ffmpeg fm un (fs ++ f :: rest)).checked = fs ++ [f] ∧
    (validate_files_with_ffmpeg fm un (fs ++ f :: rest)).deleted =
      fs.filter (fun g => decide (fm g = .corrupted) && un g) := by
  have hv : validate_files_with_ffmpeg fm un (fs ++ f :: rest) =
      validateLoop fm un true (fs ++ f :: rest) := by
    cases fs <;> rfl
  rw [hv, validateLoop_missing fm un true fs rest f hfs hf]
  exact ⟨rfl, rfl, rfl⟩

theorem validate_files_toolMissing_witness :
    (validate_files_with_ffmpeg (fun _ => FfmpegResult.toolMissing) (fun _ => true)
      ([] ++ "x.m4a".data :: ["y.m4a".data])).result = false ∧
    (validate_files_with_ffmpeg (fun _ => FfmpegResult.toolMissing) (fun _ => true)
      ([] ++ "x.m4a".data :: ["y.m4a".data])).checked = [] ++ ["x.m4a".data] ∧
    (validate_files_with_ffmpeg (fun _ => FfmpegResult.toolMissing) (fun _ => true)
      ([] ++ "x.m4a".data :: ["y.m4a".data])).deleted =
      ([] : List (List Char)).filter
        (fun g => decide ((fun _ => FfmpegResult.toolMissing) g = .corrupted) &&
          (fun _ => true) g) :=
  validate_files_toolMissing (fun _ => FfmpegResult.toolMissing) (fun _ => true)
    [] ["y.m4a".data] "x.m4a".data (by simp) rfl

/-- Claim C9: the downloader invoker's success result depends only on the
child's exit outcome, never on its output lines; with no spawn or read
exception it is true exactly when the exit code is 0. -/
theorem run_downloader_success_independent (lines1 lines2 : List (List Char))
    (oc : Except Unit Int) :
    (run_downloader_in_wsl lines1 oc).success = (run_downloader_in_wsl lines2 oc).success ∧
    ∀ c : Int, (run_downloader_in_wsl lines1 (.ok c)).success = decide (c = 0) := by
  cases oc <;> simp [run_downloader_in_wsl]

/-- Claim C1: when the candidate set holds a file ffmpeg rejects (and the
tool is present throughout), validation marks it corrupted: the run checks
every candidate in order with no short-circuit, returns false, the file is
deleted when its unlink succeeds, and a failing unlink changes neither the
false result nor the set of files checked; downstream, the process exits 1. -/
theorem validate_files_corrupted (fm : List Char → FfmpegResult)
    (un : List Char → Bool) (files : List (List Char)) (f : List Char)
    (hmem : f ∈ files) (hcor : fm f = .corrupted)
    (hnomiss : ∀ g ∈ files, fm g ≠ .toolMissing) :
    (validate_files_with_ffmpeg fm un files).checked = files ∧
    (validate_files_with_ffmpeg fm un files).result = false ∧
    (un f = true → f ∈ (validate_files_with_ffmpeg fm un files).deleted) ∧
    (∀ w : World, w.albumJsonExists = true →
      ∀ d, w.jsonLoad = .ok d → pyTruthy (dictGet d "album_url".data) = true →
        w.downloaderOutcome = .ok 0 → candidates w = files →
        w.ffmpeg = fm → w.unlinkOk = un → (main w).exitCode = 1) := by
  have hne : validate_files_with_ffmpeg fm un files = validateLoop fm un true files := by
    cases files with
    | nil => exact absurd hmem (List.not_mem_nil f)
    | cons a l => rfl
  have hcl := validateLoop_clean fm un true files hnomiss
  have hall : files.all (fun g => !decide (fm g = .corrupted)) = false := by
    rw [Bool.eq_false_iff]
    intro hall
    have := List.all_eq_true.mp hall f hmem
    simp [hcor] at this
  have hres : (validate_files_with_ffmpeg fm un files).result = false := by
    rw [hne, hcl]
    simp [hall]
  refine ⟨by rw [hne, hcl], hres, ?_, ?_⟩
  · intro hun
    rw [hne, hcl]
    simp only [List.mem_filter]
    exact ⟨hmem, by simp [hcor, hun]⟩
  · intro w h1 d h2 h3 h4 hcand hfm hun
    have hgo : (run_downloader_in_wsl w.downloaderLines w.downloaderOutcome).success
        = true := by
      rw [h4]; rfl
    simp [main, h1, h2, h3, hgo, hcand, hfm, hun, hres]

/-- A run whose descriptor is fine, whose downloader succeeds, and whose
scan directory holds one fresh `.m4a` file that ffmpeg rejects. -/
def corruptedWorld : World :=
  ⟨true, .ok [("album_url".data, .str "u".data)], 0, [], .ok 0, true, false,
    [⟨"bad.m4a".data, true, 5, false⟩], fun _ => .corrupted, fun _ => true⟩

theorem validate_files_corrupted_witness :
    (validate_files_with_ffmpeg (fun _ => FfmpegResult.corrupted) (fun _ => true)
      ["bad.m4a".data]).checked = ["bad.m4a".data] ∧
    (validate_files_with_ffmpeg (fun _ => FfmpegResult.corrupted) (fun _ => true)
      ["bad.m4a".data]).result = false ∧
    "bad.m4a".data ∈ (validate_files_with_ffmpeg (fun _ => FfmpegResult.corrupted)
      (fun _ => true) ["bad.m4a".data]).deleted ∧
    (main corruptedWorld).exitCode = 1 := by
  have h := validate_files_corrupted (fun _ => FfmpegResult.corrupted) (fun _ => true)
    ["bad.m4a".data] "bad.m4a".data (by simp) rfl (by simp)
  exact ⟨h.1, h.2.1, h.2.2.1 rfl,
    h.2.2.2 corruptedWorld rfl [("album_url".data, .str "u".data)] rfl (by decide) rfl
      (by decide) rfl rfl⟩

/-- Claim C5: when the downloader invocation reports failure (spawn or read
exception, or nonzero child exit code), the process exits 1 with the scan
and validation stages never entered, so no file is examined or deleted. -/
theorem main_downloader_failure (w : World) (d : List (List Char × JsonVal))
    (h1 : w.albumJsonExists = true) (h2 : w.jsonLoad = .ok d)
    (h3 : pyTruthy (dictGet d "album_url".data) = true)
    (h4 : w.downloaderOutcome = .error () ∨ ∃ c, w.downloaderOutcome = .ok c ∧ c ≠ 0) :
    main w = ⟨1, true, false, none⟩ := by
  have hgo : (run_downloader_in_wsl w.downloaderLines w.downloaderOutcome).success
      = false := by
    rcases h4 with h | ⟨c, hc, hcne⟩
    · rw [h]; rfl
    · rw [hc]; simp [run_downloader_in_wsl, hcne]
  simp [main, h1, h2, h3, hgo]

/-- A run whose descriptor is fine but whose downloader exits 2. -/
def failWorld : World :=
  ⟨true, .ok [("album_url".data, .str "u".data)], 0, [], .ok 2, true, false,
    [⟨"a.m4a".data, true, 5, false⟩], fun _ => .ok, fun _ => true⟩

theorem main_downloader_failure_witness :
    failWorld.downloaderOutcome = .ok 2 ∧ main failWorld = ⟨1, true, false, none⟩ :=
  ⟨rfl, main_downloader_failure failWorld [("album_url".data, .str "u".data)] rfl rfl
    (by decide) (.inr ⟨2, rfl, by decide⟩)⟩

/-- Claim C6: an empty candidate set validates vacuously true, and with the
descriptor fine and the downloader succeeding the process exits 0. -/
theorem main_empty_candidates (w : World) (d : List (List Char × JsonVal))
    (h1 : w.albumJsonExists = true) (h2 : w.jsonLoad = .ok d)
    (h3 : pyTruthy (dictGet d "album_url".data) = true)
    (h4 : w.downloaderOutcome = .ok 0) (h5 : candidates w = []) :
    (validate_files_with_ffmpeg w.ffmpeg w.unlinkOk []).result = true ∧
    main w = ⟨0, true, true, some ⟨[], [], true⟩⟩ := by
  constructor
  · rfl
  · have hgo : (run_downloader_in_wsl w.downloaderLines w.downloaderOutcome).success
        = true := by
      rw [h4]; rfl
    simp [main, h1, h2, h3, hgo, h5, validate_files_with_ffmpeg]

/-- A run whose descriptor is fine, whose downloader succeeds, and whose
scan directory does not exist, so the candidate set is empty. -/
def emptyScanWorld : World :=
  ⟨true, .ok [("album_url".data, .str "u".data)], 0, [], .ok 0, false, false, [],
    fun _ => .ok, fun _ => true⟩

theorem main_empty_candidates_witness :
    candidates emptyScanWorld = [] ∧
    (validate_files_with_ffmpeg emptyScanWorld.ffmpeg emptyScanWorld.unlinkOk
      []).result = true ∧
    main emptyScanWorld = ⟨0, true, true, some ⟨[], [], true⟩⟩ := by
  have h := main_empty_candidates emptyScanWorld
    [("album_url".data, .str "u".data)] rfl rfl (by decide) rfl rfl
  exact ⟨rfl, h.1, h.2⟩

/-- Claim C7: when the task descriptor is absent the process exits 0 with no
downloader invocation, no scan and no validation stage, hence no filesystem
change; a repeated run over the same world gives the same result. -/
theorem main_no_descriptor (w : World) (h : w.albumJsonExists = false) :
    main w = ⟨0, false, false, none⟩ := by
  simp [main, h]

/-- A run with no `album.json` present. -/
def idleWorld : World :=
  ⟨false, .ok [], 0, [], .ok 0, false, false, [], fun _ => .ok, fun _ => true⟩

theorem main_no_descriptor_witness :
    idleWorld.albumJsonExists = false ∧ main idleWorld = ⟨0, false, false, none⟩ :=
  ⟨rfl, main_no_descriptor idleWorld rfl⟩

/-- Claim C8: a descriptor that parses but has no `album_url` key makes the
process exit 1 without ever invoking the downloader. -/
theorem main_missing_url (w : World) (d : List (List Char × JsonVal))
    (h1 : w.albumJsonExists = true) (h2 : w.jsonLoad = .ok d)
    (h3 : d.find? (fun kv => kv.1 == "album_url".data) = none) :
    main w = ⟨1, false, false, none⟩ := by
  have ht : pyTruthy (dictGet d "album_url".data) = false := by
    simp [dictGet, h3, pyTruthy]
  simp [main, h1, h2, ht]

/-- A run whose descriptor has a name but no `album_url` key. -/
def missingUrlWorld : World :=
  ⟨true, .ok [("album_name".data, .str "X".data)], 0, [], .ok 0, false, false, [],
    fun _ => .ok, fun _ => true⟩

theorem main_missing_url_witness :
    ([("album_name".data, JsonVal.str "X".data)].find?
      (fun kv => kv.1 == "album_url".data) = none) ∧
    main missingUrlWorld = ⟨1, false, false, none⟩ :=
  ⟨by decide, main_missing_url missingUrlWorld [("album_name".data, .str "X".data)]
    rfl rfl (by decide)⟩

/-- Claim C10: an `album_url` key present but falsy (JSON null or the empty
string) is treated exactly like a missing key: the truthiness test fails, so
the process exits 1 and never invokes the downloader, with the same
observable outcome as the missing-field case. -/
theorem main_falsy_url (w : World) (d : List (List Char × JsonVal)) (v : JsonVal)
    (h1 : w.albumJsonExists = true) (h2 : w.jsonLoad = .ok d)
    (h3 : dictGet d "album_url".data = some v)
    (h4 : v = .null ∨ v = .str []) :
    main w = ⟨1, false, false, none⟩ := by
  have ht : pyTruthy (dictGet d "album_url".data) = false := by
    rw [h3]
    rcases h4 with h | h <;> subst h <;> rfl
  simp [main, h1, h2, ht]

/-- A run whose descriptor carries `album_url: null`. -/
def falsyUrlWorld : World :=
  ⟨true, .ok [("album_url".data, .null)], 0, [], .ok 0, false, false, [],
    fun _ => .ok, fun _ => true⟩

theorem main_falsy_url_witness :
    dictGet [("album_url".data, JsonVal.null)] "album_url".data = some .null ∧
    main falsyUrlWorld = ⟨1, false, false, none⟩ :=
  ⟨rfl, main_falsy_url falsyUrlWorld [("album_url".data, .null)] .null rfl rfl rfl
    (.inl rfl)⟩

end Controller
